import Mathlib

/-!
Verification development for the parameter/binding model of the `inox2d`
puppet core (`src/puppet.rs`).

The data model is embedded shallowly: `f32` values become exact rationals
(`ℚ`), `Vec<T>` becomes `List T`, `u32` becomes `Nat`, and Rust enums and
structs become Lean inductives and structures with the source's names.
Operations that the specification describes but whose code is not part of
the sources (the grid `evaluate` algorithm, the axis-point authoring edits,
and the crate-root version constant) are modelled from the specification
text; their doc comments say so explicitly.
-/

namespace Inox2d

/-- `f32` is modelled as the exact rationals. -/
abbrev F32 := ℚ

/-- `glam::Vec2`: a pair of `f32` components. -/
structure Vec2 where
  x : F32
  y : F32
  deriving DecidableEq, Repr

/-- Modelled from the spec: `NodeUuid` is a reference into the external
node tree, never dereferenced by the core; an abstract identifier. -/
abbrev NodeUuid := Nat

/-- Modelled from the spec: the node tree is an external collaborator,
treated as a collection of node identifiers at the interface boundary. -/
structure NodeTree where
  nodes : List NodeUuid
  deriving DecidableEq, Repr

/-- `PuppetAllowedUsers` (puppet.rs lines 8-18): who may use the puppet. -/
inductive PuppetAllowedUsers where
  | OnlyAuthor
  | OnlyLicensee
  | Everyone
  deriving DecidableEq, Repr

/-- `#[derive(Default)]` with `#[default]` on `OnlyAuthor`. -/
def PuppetAllowedUsers.default : PuppetAllowedUsers := .OnlyAuthor

/-- `PuppetAllowedRedistribution` (puppet.rs lines 20-34). -/
inductive PuppetAllowedRedistribution where
  | Prohibited
  | ViralLicense
  | CopyleftLicense
  deriving DecidableEq, Repr

/-- `#[derive(Default)]` with `#[default]` on `Prohibited`. -/
def PuppetAllowedRedistribution.default : PuppetAllowedRedistribution := .Prohibited

/-- `PuppetAllowedModification` (puppet.rs lines 36-47). -/
inductive PuppetAllowedModification where
  | Prohibited
  | AllowPersonal
  | AllowRedistribute
  deriving DecidableEq, Repr

/-- `#[derive(Default)]` with `#[default]` on `Prohibited`. -/
def PuppetAllowedModification.default : PuppetAllowedModification := .Prohibited

/-- `PuppetUsageRights` (puppet.rs lines 49-66). -/
structure PuppetUsageRights where
  allowed_users : PuppetAllowedUsers
  allow_violence : Bool
  allow_sexual : Bool
  allow_commercial : Bool
  allow_redistribution : PuppetAllowedRedistribution
  allow_modification : PuppetAllowedModification
  require_attribution : Bool
  deriving DecidableEq, Repr

/-- `#[derive(Default)]`: every field takes its own type's default
(`false` for `bool`, the `#[default]` variant for the enums). -/
def PuppetUsageRights.default : PuppetUsageRights :=
  { allowed_users := PuppetAllowedUsers.default
    allow_violence := false
    allow_sexual := false
    allow_commercial := false
    allow_redistribution := PuppetAllowedRedistribution.default
    allow_modification := PuppetAllowedModification.default
    require_attribution := false }

/-- Modelled from the spec: `crate::INOCHI2D_SPEC_VERSION`, a process-wide
compiled-in constant living at the crate root, outside the provided
sources. Its concrete value is immaterial to the claims. -/
def INOCHI2D_SPEC_VERSION : String := "1.0"

/-- `PuppetMeta` (puppet.rs lines 68-94). -/
structure PuppetMeta where
  name : Option String
  version : String
  rigger : Option String
  artist : Option String
  rights : Option PuppetUsageRights
  copyright : Option String
  license_url : Option String
  contact : Option String
  reference : Option String
  thumbnail_id : Option Nat
  preserve_pixels : Bool
  deriving DecidableEq, Repr

/-- `impl Default for PuppetMeta` (puppet.rs lines 96-112): every field
defaulted except `version`, which copies `crate::INOCHI2D_SPEC_VERSION`. -/
def PuppetMeta.default : PuppetMeta :=
  { name := none
    version := INOCHI2D_SPEC_VERSION
    rigger := none
    artist := none
    rights := none
    copyright := none
    license_url := none
    contact := none
    reference := none
    thumbnail_id := none
    preserve_pixels := false }

/-- `PuppetPhysics` (puppet.rs lines 114-118). -/
structure PuppetPhysics where
  pixels_per_meter : F32
  gravity : F32
  deriving DecidableEq, Repr

/-- `InterpolateMode` (puppet.rs lines 120-123): the sole variant is
`Linear`. -/
inductive InterpolateMode where
  | Linear
  deriving DecidableEq, Repr

/-- `BindingBase` (puppet.rs lines 125-130): shared data of every
`Binding` variant. -/
structure BindingBase where
  node : NodeUuid
  is_set : List (List Bool)
  interpolate_mode : InterpolateMode
  deriving DecidableEq, Repr

/-- `Binding` (puppet.rs lines 132-170): a tagged variant; the eight
scalar variants carry a `Vec<Vec<f32>>` value grid, `Deform` carries a
`Vec<Vec<Vec<Vec2>>>` grid whose cells are per-vertex offset sequences. -/
inductive Binding where
  | ZSort (base : BindingBase) (values : List (List F32))
  | TransformTX (base : BindingBase) (values : List (List F32))
  | TransformTY (base : BindingBase) (values : List (List F32))
  | TransformSX (base : BindingBase) (values : List (List F32))
  | TransformSY (base : BindingBase) (values : List (List F32))
  | TransformRX (base : BindingBase) (values : List (List F32))
  | TransformRY (base : BindingBase) (values : List (List F32))
  | TransformRZ (base : BindingBase) (values : List (List F32))
  | Deform (base : BindingBase) (values : List (List (List Vec2)))
  deriving DecidableEq, Repr

/-- The discriminant of a `Binding` variant. -/
inductive BindingKind where
  | ZSort
  | TransformTX
  | TransformTY
  | TransformSX
  | TransformSY
  | TransformRX
  | TransformRY
  | TransformRZ
  | Deform
  deriving DecidableEq, Repr

/-- Which variant a `Binding` is. -/
def Binding.kind : Binding → BindingKind
  | .ZSort _ _ => .ZSort
  | .TransformTX _ _ => .TransformTX
  | .TransformTY _ _ => .TransformTY
  | .TransformSX _ _ => .TransformSX
  | .TransformSY _ _ => .TransformSY
  | .TransformRX _ _ => .TransformRX
  | .TransformRY _ _ => .TransformRY
  | .TransformRZ _ _ => .TransformRZ
  | .Deform _ _ => .Deform

/-- The `base` field every variant carries. -/
def Binding.base : Binding → BindingBase
  | .ZSort b _ => b
  | .TransformTX b _ => b
  | .TransformTY b _ => b
  | .TransformSX b _ => b
  | .TransformSY b _ => b
  | .TransformRX b _ => b
  | .TransformRY b _ => b
  | .TransformRZ b _ => b
  | .Deform b _ => b

/-- The scalar value grid, for the eight scalar variants. -/
def Binding.scalarValues : Binding → Option (List (List F32))
  | .ZSort _ v => some v
  | .TransformTX _ v => some v
  | .TransformTY _ v => some v
  | .TransformSX _ v => some v
  | .TransformSY _ v => some v
  | .TransformRX _ v => some v
  | .TransformRY _ v => some v
  | .TransformRZ _ v => some v
  | .Deform _ _ => none

/-- The per-vertex offset grid, for the `Deform` variant. -/
def Binding.deformValues : Binding → Option (List (List (List Vec2)))
  | .Deform _ v => some v
  | _ => none

/-- The seven transform channels among the binding kinds. -/
def transformKinds : List BindingKind :=
  [.TransformTX, .TransformTY, .TransformSX, .TransformSY,
   .TransformRX, .TransformRY, .TransformRZ]

/-- The kinds whose grid cells are one float: depth/z-sort plus the seven
transform channels. -/
def scalarKinds : List BindingKind := BindingKind.ZSort :: transformKinds

/-- `Param` (puppet.rs lines 172-182). `axis_points: [Vec<f32>; 2]` is a
pair of sample-position sequences. -/
structure Param where
  uuid : Nat
  name : String
  is_vec2 : Bool
  min : Vec2
  max : Vec2
  defaults : Vec2
  axis_points : List F32 × List F32
  bindings : List Binding
  deriving DecidableEq, Repr

/-- The second axis participates only when the parameter is 2D; for a 1D
parameter the used second axis is empty (grid depth one). -/
def Param.usedAxis1 (p : Param) : List F32 :=
  if p.is_vec2 then p.axis_points.2 else []

/-- `Puppet` (puppet.rs lines 184-190). -/
structure Puppet where
  meta : PuppetMeta
  physics : PuppetPhysics
  nodes : NodeTree
  parameters : List Param

/-- Linear interpolation on scalars: `lerp(a, b, t) = a + (b - a) * t`. -/
def lerp (a b t : F32) : F32 := a + (b - a) * t

/-- Componentwise linear interpolation on 2D vectors. -/
def lerpVec2 (a b : Vec2) (t : F32) : Vec2 :=
  ⟨lerp a.x b.x t, lerp a.y b.y t⟩

/-- Per-vertex linear interpolation on offset sequences; the spec requires
the two sequences to have equal length (mismatch is a fatal configuration
error). -/
def lerpDeform (a b : List Vec2) (t : F32) : List Vec2 :=
  List.zipWith (fun u w => lerpVec2 u w t) a b

/-- Modelled from the spec (§4.2 steps 1-2; the `evaluate` code is not
among the provided sources): locate the bracketing axis indices
`(i, i+1)` with `axis[i] ≤ v ≤ axis[i+1]` and the interpolation fraction
`t = (v - axis[i]) / (axis[i+1] - axis[i])`; when `v` lies outside the
axis range the index is clamped to the nearest edge and the bracket
degenerates with `t = 0`, as it also does on an axis with fewer than two
samples. -/
def findBracket : List F32 → F32 → Nat × Nat × F32
  | [], _ => (0, 0, 0)
  | [_], _ => (0, 0, 0)
  | x :: y :: rest, v =>
    if v < x then (0, 0, 0)
    else if v ≤ y then (0, 1, if y - x = 0 then 0 else (v - x) / (y - x))
    else
      ((findBracket (y :: rest) v).1 + 1, (findBracket (y :: rest) v).2.1 + 1,
        (findBracket (y :: rest) v).2.2)

/-- Interpolation along one axis: read the cells at the bracketing
indices and combine them with the payload's lerp at the bracket
fraction. -/
def bracketEval {α : Type} (lerpF : α → α → F32 → α) (axis : List F32)
    (v : F32) (cell : Nat → α) : α :=
  lerpF (cell (findBracket axis v).1) (cell (findBracket axis v).2.1)
    (findBracket axis v).2.2

/-- Modelled from the spec (§4.2 step 3, `InterpolateMode::Linear`):
bilinear interpolation across the bracketing grid cells — row index on
axis 0, column index on axis 1 — degenerating to 1D linear interpolation
when an axis has fewer than two samples. -/
def evalGrid {α : Type} (lerpF : α → α → F32 → α) (dflt : α)
    (axis0 axis1 : List F32) (grid : List (List α)) (v : F32 × F32) : α :=
  bracketEval lerpF axis0 v.1 fun i0 =>
    bracketEval lerpF axis1 v.2 fun i1 => (grid.getD i0 []).getD i1 dflt

/-- Modelled from the spec (§4.2): the result of evaluating a binding is
either a scalar or a per-vertex offset sequence. -/
inductive BindingOutput where
  | scalar (value : F32)
  | deform (offsets : List Vec2)
  deriving DecidableEq, Repr

/-- Modelled from the spec (§4.2, code not among the provided sources):
`evaluate(param_value) -> BindingOutput`, resolving the binding's value
grid at a parameter value by linear/bilinear interpolation over the
owning `Param`'s axes; read-only. -/
def Binding.evaluate (p : Param) (b : Binding) (v : F32 × F32) : BindingOutput :=
  match b with
  | .ZSort _ values =>
    .scalar (evalGrid lerp 0 p.axis_points.1 p.usedAxis1 values v)
  | .TransformTX _ values =>
    .scalar (evalGrid lerp 0 p.axis_points.1 p.usedAxis1 values v)
  | .TransformTY _ values =>
    .scalar (evalGrid lerp 0 p.axis_points.1 p.usedAxis1 values v)
  | .TransformSX _ values =>
    .scalar (evalGrid lerp 0 p.axis_points.1 p.usedAxis1 values v)
  | .TransformSY _ values =>
    .scalar (evalGrid lerp 0 p.axis_points.1 p.usedAxis1 values v)
  | .TransformRX _ values =>
    .scalar (evalGrid lerp 0 p.axis_points.1 p.usedAxis1 values v)
  | .TransformRY _ values =>
    .scalar (evalGrid lerp 0 p.axis_points.1 p.usedAxis1 values v)
  | .TransformRZ _ values =>
    .scalar (evalGrid lerp 0 p.axis_points.1 p.usedAxis1 values v)
  | .Deform _ values =>
    .deform (evalGrid lerpDeform [] p.axis_points.1 p.usedAxis1 values v)

/-- The stored output at grid cell `(i0, i1)` of a binding. -/
def Binding.cellAt (b : Binding) (i0 i1 : Nat) : BindingOutput :=
  match b with
  | .ZSort _ values => .scalar ((values.getD i0 []).getD i1 0)
  | .TransformTX _ values => .scalar ((values.getD i0 []).getD i1 0)
  | .TransformTY _ values => .scalar ((values.getD i0 []).getD i1 0)
  | .TransformSX _ values => .scalar ((values.getD i0 []).getD i1 0)
  | .TransformSY _ values => .scalar ((values.getD i0 []).getD i1 0)
  | .TransformRX _ values => .scalar ((values.getD i0 []).getD i1 0)
  | .TransformRY _ values => .scalar ((values.getD i0 []).getD i1 0)
  | .TransformRZ _ values => .scalar ((values.getD i0 []).getD i1 0)
  | .Deform _ values => .deform ((values.getD i0 []).getD i1 [])

/-- Spec invariant (§3): a value grid is shaped by the owning `Param`'s
axes — one row per axis-0 sample, one cell per axis-1 sample in every row
(a single cell per row when the parameter is 1D). -/
def gridShaped {α : Type} (p : Param) (grid : List (List α)) : Prop :=
  grid.length = p.axis_points.1.length ∧
  ∀ row ∈ grid, row.length = max p.usedAxis1.length 1

/-- A binding's value grid has the shape dictated by its owning
`Param`. -/
def Binding.wellShaped (p : Param) (b : Binding) : Prop :=
  (∀ g, b.scalarValues = some g → gridShaped p g) ∧
  (∀ g, b.deformValues = some g → gridShaped p g)

/-- Spec §4.2: all per-vertex sequences of a `Deform` grid have one
common length `n` (the target's vertex count); scalar bindings impose no
condition. -/
def Binding.uniformVertexCount (b : Binding) (n : Nat) : Prop :=
  match b with
  | .Deform _ values => ∀ row ∈ values, ∀ c ∈ row, c.length = n
  | _ => True

/-- Clamp a value into the range spanned by an axis; the identity on an
empty axis. -/
def clampAxis (axis : List F32) (v : F32) : F32 :=
  match axis with
  | [] => v
  | x :: tl => max x (min v ((x :: tl).getLast (List.cons_ne_nil x tl)))

/-- Authoring-edit errors (spec §4.1 and §7). -/
inductive ParamError where
  | DuplicateAxisPoint
  | MinimumAxisPointsViolation
  deriving DecidableEq, Repr

/-- Modelled from the spec (§4.1): the default contents of a freshly
inserted grid entry at index `k` — a linear interpolation of the two
neighboring entries at the two nearest existing axis points, repeating
the nearest edge entry when inserting at an extreme. -/
def defaultEntry {β : Type} (lerpE : β → β → F32 → β) (dfltB : β)
    (axis : List F32) (pos : F32) (entries : List β) (k : Nat) : β :=
  if k = 0 then entries.headD dfltB
  else if k < axis.length then
    let a := axis.getD (k - 1) 0
    let b := axis.getD k 0
    let t := if b - a = 0 then 0 else (pos - a) / (b - a)
    lerpE (entries.getD (k - 1) dfltB) (entries.getD k dfltB) t
  else entries.getLastD dfltB

/-- Insert a defaulted entry at index `k` of a one-dimensional slice of a
grid (a row list for dimension 0, a single row for dimension 1). -/
def insertGridEntry {β : Type} (lerpE : β → β → F32 → β) (dfltB : β)
    (axis : List F32) (pos : F32) (k : Nat) (entries : List β) : List β :=
  entries.insertIdx k (defaultEntry lerpE dfltB axis pos entries k)

/-- Cellwise lerp of two scalar grid rows. -/
def lerpRow (r1 r2 : List F32) (t : F32) : List F32 :=
  List.zipWith (fun a b => lerp a b t) r1 r2

/-- Cellwise lerp of two deform grid rows. -/
def lerpDeformRow (r1 r2 : List (List Vec2)) (t : F32) : List (List Vec2) :=
  List.zipWith (fun a b => lerpDeform a b t) r1 r2

/-- Reshape a scalar value grid for a new axis sample at index `k` of
dimension `dim`: a new interpolated row for dimension 0, a new
interpolated cell in every row for dimension 1. -/
def insertScalarGrid (dim : Fin 2) (axis : List F32) (pos : F32) (k : Nat)
    (values : List (List F32)) : List (List F32) :=
  if dim = 0 then insertGridEntry lerpRow [] axis pos k values
  else values.map fun row => insertGridEntry lerp 0 axis pos k row

/-- Reshape a deform value grid for a new axis sample, as
`insertScalarGrid` but with per-vertex cells. -/
def insertDeformGrid (dim : Fin 2) (axis : List F32) (pos : F32) (k : Nat)
    (values : List (List (List Vec2))) : List (List (List Vec2)) :=
  if dim = 0 then insertGridEntry lerpDeformRow [] axis pos k values
  else values.map fun row => insertGridEntry lerpDeform [] axis pos k row

/-- Reshape an `is_set` grid for a new axis sample: the fresh cells hold
no explicit keyframe, so they are `false`. -/
def BindingBase.insertAxis (bb : BindingBase) (dim : Fin 2) (k : Nat) : BindingBase :=
  if dim = 0 then
    { bb with
      is_set := bb.is_set.insertIdx k (List.replicate (bb.is_set.headD []).length false) }
  else { bb with is_set := bb.is_set.map fun row => row.insertIdx k false }

/-- Reshape one binding's grids for a new axis sample at index `k` of
dimension `dim` (spec §4.1). -/
def Binding.insertAxis (b : Binding) (dim : Fin 2) (axis : List F32)
    (pos : F32) (k : Nat) : Binding :=
  match b with
  | .ZSort bb values => .ZSort (bb.insertAxis dim k) (insertScalarGrid dim axis pos k values)
  | .TransformTX bb values => .TransformTX (bb.insertAxis dim k) (insertScalarGrid dim axis pos k values)
  | .TransformTY bb values => .TransformTY (bb.insertAxis dim k) (insertScalarGrid dim axis pos k values)
  | .TransformSX bb values => .TransformSX (bb.insertAxis dim k) (insertScalarGrid dim axis pos k values)
  | .TransformSY bb values => .TransformSY (bb.insertAxis dim k) (insertScalarGrid dim axis pos k values)
  | .TransformRX bb values => .TransformRX (bb.insertAxis dim k) (insertScalarGrid dim axis pos k values)
  | .TransformRY bb values => .TransformRY (bb.insertAxis dim k) (insertScalarGrid dim axis pos k values)
  | .TransformRZ bb values => .TransformRZ (bb.insertAxis dim k) (insertScalarGrid dim axis pos k values)
  | .Deform bb values => .Deform (bb.insertAxis dim k) (insertDeformGrid dim axis pos k values)

/-- Delete the row (dimension 0) or the cell of every row (dimension 1)
at index `idx` of a grid. -/
def removeGridEntry {γ : Type} (dim : Fin 2) (idx : Nat)
    (grid : List (List γ)) : List (List γ) :=
  if dim = 0 then grid.eraseIdx idx
  else grid.map fun row => row.eraseIdx idx

/-- Drop the `is_set` row/column at index `idx`. -/
def BindingBase.removeAxis (bb : BindingBase) (dim : Fin 2) (idx : Nat) : BindingBase :=
  { bb with is_set := removeGridEntry dim idx bb.is_set }

/-- Reshape one binding's grids for a removed axis sample at index `idx`
of dimension `dim` (spec §4.1). -/
def Binding.removeAxis (b : Binding) (dim : Fin 2) (idx : Nat) : Binding :=
  match b with
  | .ZSort bb values => .ZSort (bb.removeAxis dim idx) (removeGridEntry dim idx values)
  | .TransformTX bb values => .TransformTX (bb.removeAxis dim idx) (removeGridEntry dim idx values)
  | .TransformTY bb values => .TransformTY (bb.removeAxis dim idx) (removeGridEntry dim idx values)
  | .TransformSX bb values => .TransformSX (bb.removeAxis dim idx) (removeGridEntry dim idx values)
  | .TransformSY bb values => .TransformSY (bb.removeAxis dim idx) (removeGridEntry dim idx values)
  | .TransformRX bb values => .TransformRX (bb.removeAxis dim idx) (removeGridEntry dim idx values)
  | .TransformRY bb values => .TransformRY (bb.removeAxis dim idx) (removeGridEntry dim idx values)
  | .TransformRZ bb values => .TransformRZ (bb.removeAxis dim idx) (removeGridEntry dim idx values)
  | .Deform bb values => .Deform (bb.removeAxis dim idx) (removeGridEntry dim idx values)

/-- The axis-sample sequence of one dimension. -/
def Param.axisAt (p : Param) (dim : Fin 2) : List F32 :=
  if dim = 0 then p.axis_points.1 else p.axis_points.2

/-- Replace the axis-sample sequence of one dimension. -/
def Param.setAxisAt (p : Param) (dim : Fin 2) (axis : List F32) : Param :=
  if dim = 0 then { p with axis_points := (axis, p.axis_points.2) }
  else { p with axis_points := (p.axis_points.1, axis) }

/-- Modelled from the spec (§4.1, code not among the provided sources):
insert a new axis sample at position `pos` along dimension `dim`. A
duplicate position is rejected with `DuplicateAxisPoint` and nothing is
mutated; otherwise the sample lands at its sorted index and every owned
binding's value grid gains an interpolated row/column while its `is_set`
grid gains a `false` row/column. -/
def Param.insertAxisPoint (p : Param) (dim : Fin 2) (pos : F32) :
    Except ParamError Param :=
  let axis := p.axisAt dim
  if pos ∈ axis then .error .DuplicateAxisPoint
  else
    let k := axis.countP fun a => decide (a < pos)
    let p2 := p.setAxisAt dim (axis.insertIdx k pos)
    .ok { p2 with bindings := p.bindings.map fun b => b.insertAxis dim axis pos k }

/-- Modelled from the spec (§4.1, code not among the provided sources):
remove the axis sample at index `idx` along dimension `dim`, deleting the
corresponding row/column of every owned binding's grids; rejected with
`MinimumAxisPointsViolation` (and nothing mutated) when the dimension
would be left with fewer than two samples. -/
def Param.removeAxisPoint (p : Param) (dim : Fin 2) (idx : Nat) :
    Except ParamError Param :=
  let axis := p.axisAt dim
  if axis.length ≤ 2 then .error .MinimumAxisPointsViolation
  else
    let p2 := p.setAxisAt dim (axis.eraseIdx idx)
    .ok { p2 with bindings := p.bindings.map fun b => b.removeAxis dim idx }

end Inox2d

namespace Inox2d

theorem lerp_zero (a b : F32) : lerp a b 0 = a := by
  simp [lerp]

theorem lerp_one (a b : F32) : lerp a b 1 = b := by
  simp [lerp]

theorem lerp_same (a t : F32) : lerp a a t = a := by
  simp [lerp]

theorem lerpVec2_zero (a b : Vec2) : lerpVec2 a b 0 = a := by
  cases a
  simp [lerpVec2, lerp_zero]

theorem lerpVec2_one (a b : Vec2) : lerpVec2 a b 1 = b := by
  cases b
  simp [lerpVec2, lerp_one]

theorem lerpVec2_same (a : Vec2) (t : F32) : lerpVec2 a a t = a := by
  cases a
  simp [lerpVec2, lerp_same]

theorem lerpDeform_zero : ∀ a b : List Vec2, a.length ≤ b.length →
    lerpDeform a b 0 = a
  | [], _, _ => rfl
  | _ :: _, [], h => by simp at h
  | x :: xs, y :: ys, h => by
    have hxs := lerpDeform_zero xs ys (by simpa using h)
    simp only [lerpDeform, List.zipWith_cons_cons, lerpVec2_zero] at hxs ⊢
    rw [hxs]

theorem lerpDeform_one : ∀ a b : List Vec2, b.length ≤ a.length →
    lerpDeform a b 1 = b
  | _, [], _ => by simp [lerpDeform]
  | [], _ :: _, h => by simp at h
  | x :: xs, y :: ys, h => by
    have hys := lerpDeform_one xs ys (by simpa using h)
    simp only [lerpDeform, List.zipWith_cons_cons, lerpVec2_one] at hys ⊢
    rw [hys]

theorem lerpDeform_same (a : List Vec2) (t : F32) : lerpDeform a a t = a := by
  simp [lerpDeform, List.zipWith_same, lerpVec2_same]

theorem lerpDeform_length (a b : List Vec2) (t : F32) :
    (lerpDeform a b t).length = min a.length b.length := by
  simp [lerpDeform]

theorem findBracket_lt : ∀ (axis : List F32) (v : F32),
    (findBracket axis v).1 < max axis.length 1 ∧
    (findBracket axis v).2.1 < max axis.length 1
  | [], v => by simp [findBracket]
  | [x], v => by simp [findBracket]
  | x :: y :: rest, v => by
    by_cases h1 : v < x
    · simp [findBracket, h1]
    · by_cases h2 : v ≤ y
      · simp [findBracket, h1, h2]
      · have ih := findBracket_lt (y :: rest) v
        simp only [findBracket, if_neg h1, if_neg h2]
        simp only [List.length_cons] at ih ⊢
        omega

theorem findBracket_at_sample : ∀ (axis : List F32) (j : Nat),
    axis.Chain' (· < ·) → j < axis.length →
    ((findBracket axis (axis.getD j 0)).2.2 = 0 ∧
      (findBracket axis (axis.getD j 0)).1 = j) ∨
    ((findBracket axis (axis.getD j 0)).2.2 = 1 ∧
      (findBracket axis (axis.getD j 0)).2.1 = j)
  | [], j, _, hj => absurd hj (by simp)
  | [x], j, _, hj => by
    have hj0 : j = 0 := by simpa using hj
    subst hj0
    left
    simp [findBracket]
  | x :: y :: rest, j, hs, hj => by
    have hxy : x < y := (List.chain'_cons.mp hs).1
    have hs2 : (y :: rest).Chain' (· < ·) := (List.chain'_cons.mp hs).2
    cases j with
    | zero =>
      left
      have hnx : ¬ (x : F32) < x := lt_irrefl x
      simp [findBracket, hnx, le_of_lt hxy, sub_self]
    | succ k =>
      cases k with
      | zero =>
        right
        have hnx : ¬ (y : F32) < x := not_lt.mpr (le_of_lt hxy)
        have hne : y - x ≠ 0 := sub_ne_zero.mpr (ne_of_gt hxy)
        simp [findBracket, hnx, hne, div_self]
      | succ m =>
        have hm : m < rest.length := by simpa using hj
        have hyv2 : y < (y :: rest).getD (m + 1) 0 := by
          have hp : List.Pairwise (· < ·) (y :: rest) :=
            List.chain'_iff_pairwise.mp hs2
          have hmem : rest.getD m 0 ∈ rest := by
            rw [List.getD_eq_getElem rest 0 hm]
            exact List.getElem_mem hm
          simpa [List.getD_cons_succ] using (List.pairwise_cons.mp hp).1 _ hmem
        have hv : (x :: y :: rest).getD (m + 1 + 1) 0 = (y :: rest).getD (m + 1) 0 :=
          List.getD_cons_succ
        rw [hv]
        have hnx : ¬ (y :: rest).getD (m + 1) 0 < x :=
          not_lt.mpr (le_of_lt (lt_trans hxy hyv2))
        have hnle : ¬ (y :: rest).getD (m + 1) 0 ≤ y := not_le.mpr hyv2
        have hk : m + 1 < (y :: rest).length := by simpa using hj
        rcases findBracket_at_sample (y :: rest) (m + 1) hs2 hk with ⟨ht, hi⟩ | ⟨ht, hi⟩
        · left
          simp only [findBracket, if_neg hnx, if_neg hnle]
          exact ⟨ht, by omega⟩
        · right
          simp only [findBracket, if_neg hnx, if_neg hnle]
          exact ⟨ht, by omega⟩

theorem bracketEval_at_sample {α : Type} (lerpF : α → α → F32 → α)
    (axis : List F32) (v : F32) (cell : Nat → α) (j : Nat)
    (hs : axis.Chain' (· < ·)) (hj : j < axis.length) (hv : v = axis.getD j 0)
    (h0 : ∀ m n, m < max axis.length 1 → n < max axis.length 1 →
      lerpF (cell m) (cell n) 0 = cell m)
    (h1 : ∀ m n, m < max axis.length 1 → n < max axis.length 1 →
      lerpF (cell m) (cell n) 1 = cell n) :
    bracketEval lerpF axis v cell = cell j := by
  subst hv
  have hb := findBracket_lt axis (axis.getD j 0)
  have hjm : j < max axis.length 1 := lt_of_lt_of_le hj (le_max_left _ _)
  rcases findBracket_at_sample axis j hs hj with ⟨ht, hi⟩ | ⟨ht, hi⟩
  · unfold bracketEval
    rw [ht, hi]
    exact h0 j _ hjm hb.2
  · unfold bracketEval
    rw [ht, hi]
    exact h1 _ j hb.1 hjm

theorem head_le_getLast (x : F32) (tl : List F32)
    (hs : (x :: tl).Chain' (· < ·)) :
    x ≤ (x :: tl).getLast (List.cons_ne_nil x tl) := by
  have hp := List.chain'_iff_pairwise.mp hs
  have hmem := List.getLast_mem (List.cons_ne_nil x tl)
  rcases List.mem_cons.mp hmem with h | h
  · exact le_of_eq h.symm
  · exact le_of_lt ((List.pairwise_cons.mp hp).1 _ h)

theorem findBracket_low (x : F32) (tl : List F32) (v : F32)
    (hs : (x :: tl).Chain' (· < ·)) (hv : v ≤ x) :
    (findBracket (x :: tl) v).2.2 = 0 ∧ (findBracket (x :: tl) v).1 = 0 := by
  cases tl with
  | nil => simp [findBracket]
  | cons y rest =>
    by_cases hvx : v < x
    · simp [findBracket, hvx]
    · have hveq : v = x := le_antisymm hv (not_lt.mp hvx)
      subst hveq
      have hxy : v < y := (List.chain'_cons.mp hs).1
      simp [findBracket, hvx, le_of_lt hxy, sub_self]

theorem findBracket_high : ∀ (axis : List F32) (v : F32) (hne : axis ≠ []),
    axis.Chain' (· < ·) → axis.getLast hne < v →
    findBracket axis v = (axis.length - 1, axis.length - 1, 0)
  | [], _, hne, _, _ => absurd rfl hne
  | [x], v, _, _, _ => by simp [findBracket]
  | x :: y :: rest, v, _, hs, hlast => by
    have hxy : x < y := (List.chain'_cons.mp hs).1
    have hs2 : (y :: rest).Chain' (· < ·) := (List.chain'_cons.mp hs).2
    have hlast2 : (y :: rest).getLast (List.cons_ne_nil y rest) < v := by
      rwa [List.getLast_cons (List.cons_ne_nil y rest)] at hlast
    have hyle : y ≤ (y :: rest).getLast (List.cons_ne_nil y rest) :=
      head_le_getLast y rest hs2
    have hyv : y < v := lt_of_le_of_lt hyle hlast2
    have hnx : ¬ v < x := not_lt.mpr (le_of_lt (lt_trans hxy hyv))
    have hnle : ¬ v ≤ y := not_le.mpr hyv
    have ih := findBracket_high (y :: rest) v (List.cons_ne_nil y rest) hs2 hlast2
    simp only [findBracket, if_neg hnx, if_neg hnle, ih]
    simp only [List.length_cons, Prod.mk.injEq]
    refine ⟨by omega, by omega, trivial⟩

theorem bracketEval_clamp {α : Type} (lerpF : α → α → F32 → α)
    (axis : List F32) (v : F32) (cell : Nat → α)
    (hs : axis.Chain' (· < ·))
    (h0 : ∀ m n, m < max axis.length 1 → n < max axis.length 1 →
      lerpF (cell m) (cell n) 0 = cell m)
    (h1 : ∀ m n, m < max axis.length 1 → n < max axis.length 1 →
      lerpF (cell m) (cell n) 1 = cell n) :
    bracketEval lerpF axis v cell = bracketEval lerpF axis (clampAxis axis v) cell := by
  cases axis with
  | nil => rfl
  | cons x tl =>
    have hxle : x ≤ (x :: tl).getLast (List.cons_ne_nil x tl) :=
      head_le_getLast x tl hs
    by_cases hlow : v ≤ x
    · have hcl : clampAxis (x :: tl) v = x := by
        simp [clampAxis, min_eq_left (le_trans hlow hxle), max_eq_left hlow]
      rw [hcl]
      have hL := findBracket_low x tl v hs hlow
      have hb := findBracket_lt (x :: tl) v
      have lhs : bracketEval lerpF (x :: tl) v cell = cell 0 := by
        unfold bracketEval
        rw [hL.1, hL.2]
        exact h0 0 _ (by simp) hb.2
      have rhs : bracketEval lerpF (x :: tl) x cell = cell 0 :=
        bracketEval_at_sample lerpF (x :: tl) x cell 0 hs (by simp) (by simp) h0 h1
      rw [lhs, rhs]
    · by_cases hhigh : (x :: tl).getLast (List.cons_ne_nil x tl) < v
      · have hcl : clampAxis (x :: tl) v = (x :: tl).getLast (List.cons_ne_nil x tl) := by
          simp [clampAxis, min_eq_right (le_of_lt hhigh), max_eq_right hxle]
        rw [hcl]
        have hH := findBracket_high (x :: tl) v (List.cons_ne_nil x tl) hs hhigh
        have hlen : (x :: tl).length - 1 < max (x :: tl).length 1 := by
          simp only [List.length_cons]
          omega
        have lhs : bracketEval lerpF (x :: tl) v cell = cell ((x :: tl).length - 1) := by
          unfold bracketEval
          rw [hH]
          exact h0 _ _ hlen hlen
        have rhs : bracketEval lerpF (x :: tl) ((x :: tl).getLast (List.cons_ne_nil x tl)) cell
            = cell ((x :: tl).length - 1) := by
          refine bracketEval_at_sample lerpF (x :: tl) _ cell ((x :: tl).length - 1)
            hs (by simp) ?_ h0 h1
          rw [List.getD_eq_getElem _ _ (by simp), List.getLast_eq_getElem]
        rw [lhs, rhs]
      · have hcl : clampAxis (x :: tl) v = v := by
          simp [clampAxis, min_eq_left (not_lt.mp hhigh),
            max_eq_right (le_of_lt (not_le.mp hlow))]
        rw [hcl]

theorem evalGrid_scalar_at_sample (axis0 axis1 : List F32)
    (grid : List (List F32)) (j0 j1 : Nat) (v : F32 × F32)
    (hs0 : axis0.Chain' (· < ·)) (hs1 : axis1.Chain' (· < ·))
    (hj0 : j0 < axis0.length) (hv1 : v.1 = axis0.getD j0 0)
    (hj1 : (axis1 = [] ∧ j1 = 0) ∨ (j1 < axis1.length ∧ v.2 = axis1.getD j1 0)) :
    evalGrid lerp 0 axis0 axis1 grid v = (grid.getD j0 []).getD j1 0 := by
  have hinner : ∀ i0 : Nat,
      bracketEval lerp axis1 v.2 (fun i1 => (grid.getD i0 []).getD i1 0)
        = (grid.getD i0 []).getD j1 0 := by
    intro i0
    rcases hj1 with ⟨he, hj⟩ | ⟨hlt, hv2⟩
    · subst he
      subst hj
      simp [bracketEval, findBracket, lerp_zero]
    · exact bracketEval_at_sample lerp axis1 v.2 _ j1 hs1 hlt hv2
        (fun m n _ _ => lerp_zero _ _) (fun m n _ _ => lerp_one _ _)
  unfold evalGrid
  rw [funext hinner]
  exact bracketEval_at_sample lerp axis0 v.1 _ j0 hs0 hj0 hv1
    (fun m n _ _ => lerp_zero _ _) (fun m n _ _ => lerp_one _ _)

theorem evalGrid_deform_at_sample (axis0 axis1 : List F32)
    (grid : List (List (List Vec2))) (j0 j1 : Nat) (v : F32 × F32) (n : Nat)
    (hs0 : axis0.Chain' (· < ·)) (hs1 : axis1.Chain' (· < ·))
    (hj0 : j0 < axis0.length) (hv1 : v.1 = axis0.getD j0 0)
    (hj1 : (axis1 = [] ∧ j1 = 0) ∨ (j1 < axis1.length ∧ v.2 = axis1.getD j1 0))
    (hlen : grid.length = axis0.length)
    (hrow : ∀ row ∈ grid, row.length = max axis1.length 1)
    (huni : ∀ row ∈ grid, ∀ c ∈ row, c.length = n) :
    evalGrid lerpDeform [] axis0 axis1 grid v = (grid.getD j0 []).getD j1 [] := by
  have hcell : ∀ i0, i0 < grid.length → ∀ i1, i1 < max axis1.length 1 →
      ((grid.getD i0 []).getD i1 []).length = n := by
    intro i0 hi0 i1 hi1
    have hrowmem : grid.getD i0 [] ∈ grid := by
      rw [List.getD_eq_getElem _ _ hi0]
      exact List.getElem_mem hi0
    have hrl : (grid.getD i0 []).length = max axis1.length 1 := hrow _ hrowmem
    have hi1' : i1 < (grid.getD i0 []).length := by
      rw [hrl]
      exact hi1
    have hcmem : (grid.getD i0 []).getD i1 [] ∈ grid.getD i0 [] := by
      rw [List.getD_eq_getElem _ _ hi1']
      exact List.getElem_mem hi1'
    exact huni _ hrowmem _ hcmem
  have hinnerlen : ∀ (w : F32) (i0 : Nat), i0 < grid.length →
      (bracketEval lerpDeform axis1 w
        (fun i1 => (grid.getD i0 []).getD i1 [])).length = n := by
    intro w i0 hi0
    have hb := findBracket_lt axis1 w
    unfold bracketEval
    rw [lerpDeform_length, hcell i0 hi0 _ hb.1, hcell i0 hi0 _ hb.2]
    simp
  have hmax0 : max axis0.length 1 = grid.length := by
    rw [hlen]
    exact max_eq_left (by omega)
  have h0out : ∀ m n', m < max axis0.length 1 → n' < max axis0.length 1 →
      lerpDeform
        (bracketEval lerpDeform axis1 v.2 (fun i1 => (grid.getD m []).getD i1 []))
        (bracketEval lerpDeform axis1 v.2 (fun i1 => (grid.getD n' []).getD i1 []))
        0
      = bracketEval lerpDeform axis1 v.2 (fun i1 => (grid.getD m []).getD i1 []) := by
    intro m n' hm hn'
    rw [hmax0] at hm hn'
    exact lerpDeform_zero _ _ (by rw [hinnerlen v.2 m hm, hinnerlen v.2 n' hn'])
  have h1out : ∀ m n', m < max axis0.length 1 → n' < max axis0.length 1 →
      lerpDeform
        (bracketEval lerpDeform axis1 v.2 (fun i1 => (grid.getD m []).getD i1 []))
        (bracketEval lerpDeform axis1 v.2 (fun i1 => (grid.getD n' []).getD i1 []))
        1
      = bracketEval lerpDeform axis1 v.2 (fun i1 => (grid.getD n' []).getD i1 []) := by
    intro m n' hm hn'
    rw [hmax0] at hm hn'
    exact lerpDeform_one _ _ (by rw [hinnerlen v.2 m hm, hinnerlen v.2 n' hn'])
  have houter : evalGrid lerpDeform [] axis0 axis1 grid v
      = bracketEval lerpDeform axis1 v.2 (fun i1 => (grid.getD j0 []).getD i1 []) := by
    unfold evalGrid
    exact bracketEval_at_sample lerpDeform axis0 v.1 _ j0 hs0 hj0 hv1 h0out h1out
  rw [houter]
  rcases hj1 with ⟨he, hj⟩ | ⟨hlt, hv2⟩
  · subst he
    subst hj
    simp [bracketEval, findBracket, lerpDeform_same]
  · have hj0' : j0 < grid.length := by
      rw [hlen]
      exact hj0
    refine bracketEval_at_sample lerpDeform axis1 v.2 _ j1 hs1 hlt hv2 ?_ ?_
    · intro m n' hm hn'
      exact lerpDeform_zero _ _ (by rw [hcell j0 hj0' m hm, hcell j0 hj0' n' hn'])
    · intro m n' hm hn'
      exact lerpDeform_one _ _ (by rw [hcell j0 hj0' m hm, hcell j0 hj0' n' hn'])

theorem evaluate_at_sample_aux (p : Param) (b : Binding) (j0 j1 : Nat)
    (v : F32 × F32) (n : Nat)
    (hs0 : p.axis_points.1.Chain' (· < ·)) (hs1 : p.usedAxis1.Chain' (· < ·))
    (hshape : b.wellShaped p) (huni : b.uniformVertexCount n)
    (hj0 : j0 < p.axis_points.1.length)
    (hv1 : v.1 = p.axis_points.1.getD j0 0)
    (hj1 : (p.usedAxis1 = [] ∧ j1 = 0) ∨
      (j1 < p.usedAxis1.length ∧ v.2 = p.usedAxis1.getD j1 0)) :
    b.evaluate p v = b.cellAt j0 j1 := by
  cases b with
  | ZSort bb values =>
    exact congrArg BindingOutput.scalar
      (evalGrid_scalar_at_sample _ _ values j0 j1 v hs0 hs1 hj0 hv1 hj1)
  | TransformTX bb values =>
    exact congrArg BindingOutput.scalar
      (evalGrid_scalar_at_sample _ _ values j0 j1 v hs0 hs1 hj0 hv1 hj1)
  | TransformTY bb values =>
    exact congrArg BindingOutput.scalar
      (evalGrid_scalar_at_sample _ _ values j0 j1 v hs0 hs1 hj0 hv1 hj1)
  | TransformSX bb values =>
    exact congrArg BindingOutput.scalar
      (evalGrid_scalar_at_sample _ _ values j0 j1 v hs0 hs1 hj0 hv1 hj1)
  | TransformSY bb values =>
    exact congrArg BindingOutput.scalar
      (evalGrid_scalar_at_sample _ _ values j0 j1 v hs0 hs1 hj0 hv1 hj1)
  | TransformRX bb values =>
    exact congrArg BindingOutput.scalar
      (evalGrid_scalar_at_sample _ _ values j0 j1 v hs0 hs1 hj0 hv1 hj1)
  | TransformRY bb values =>
    exact congrArg BindingOutput.scalar
      (evalGrid_scalar_at_sample _ _ values j0 j1 v hs0 hs1 hj0 hv1 hj1)
  | TransformRZ bb values =>
    exact congrArg BindingOutput.scalar
      (evalGrid_scalar_at_sample _ _ values j0 j1 v hs0 hs1 hj0 hv1 hj1)
  | Deform bb values =>
    have hg := hshape.2 values rfl
    exact congrArg BindingOutput.deform
      (evalGrid_deform_at_sample _ _ values j0 j1 v n hs0 hs1 hj0 hv1 hj1
        hg.1 hg.2 huni)

theorem deform_cell_length (axis1 : List F32) (grid : List (List (List Vec2)))
    (n : Nat)
    (hrow : ∀ row ∈ grid, row.length = max axis1.length 1)
    (huni : ∀ row ∈ grid, ∀ c ∈ row, c.length = n) :
    ∀ i0, i0 < grid.length → ∀ i1, i1 < max axis1.length 1 →
      ((grid.getD i0 []).getD i1 []).length = n := by
  intro i0 hi0 i1 hi1
  have hrowmem : grid.getD i0 [] ∈ grid := by
    rw [List.getD_eq_getElem _ _ hi0]
    exact List.getElem_mem hi0
  have hi1' : i1 < (grid.getD i0 []).length := by
    rw [hrow _ hrowmem]
    exact hi1
  have hcmem : (grid.getD i0 []).getD i1 [] ∈ grid.getD i0 [] := by
    rw [List.getD_eq_getElem _ _ hi1']
    exact List.getElem_mem hi1'
  exact huni _ hrowmem _ hcmem

theorem deform_inner_length (axis1 : List F32) (grid : List (List (List Vec2)))
    (n : Nat)
    (hrow : ∀ row ∈ grid, row.length = max axis1.length 1)
    (huni : ∀ row ∈ grid, ∀ c ∈ row, c.length = n) :
    ∀ (w : F32) (i0 : Nat),
      (bracketEval lerpDeform axis1 w
        (fun i1 => (grid.getD i0 []).getD i1 [])).length
      = if i0 < grid.length then n else 0 := by
  intro w i0
  have hb := findBracket_lt axis1 w
  by_cases hi0 : i0 < grid.length
  · rw [if_pos hi0]
    unfold bracketEval
    rw [lerpDeform_length,
      deform_cell_length axis1 grid n hrow huni i0 hi0 _ hb.1,
      deform_cell_length axis1 grid n hrow huni i0 hi0 _ hb.2]
    simp
  · rw [if_neg hi0]
    have hg : grid.getD i0 [] = [] :=
      List.getD_eq_default _ _ (not_lt.mp hi0)
    unfold bracketEval
    simp only [hg]
    simp [lerpDeform]

theorem evalGrid_scalar_clamp (axis0 axis1 : List F32)
    (grid : List (List F32)) (v : F32 × F32)
    (hs0 : axis0.Chain' (· < ·)) (hs1 : axis1.Chain' (· < ·)) :
    evalGrid lerp 0 axis0 axis1 grid v
      = evalGrid lerp 0 axis0 axis1 grid
          (clampAxis axis0 v.1, clampAxis axis1 v.2) := by
  unfold evalGrid
  have hinner : ∀ i0 : Nat,
      bracketEval lerp axis1 v.2 (fun i1 => (grid.getD i0 []).getD i1 0)
        = bracketEval lerp axis1 (clampAxis axis1 v.2)
            (fun i1 => (grid.getD i0 []).getD i1 0) :=
    fun i0 => bracketEval_clamp lerp axis1 v.2 _ hs1
      (fun m n _ _ => lerp_zero _ _) (fun m n _ _ => lerp_one _ _)
  rw [funext hinner]
  exact bracketEval_clamp lerp axis0 v.1 _ hs0
    (fun m n _ _ => lerp_zero _ _) (fun m n _ _ => lerp_one _ _)

theorem evalGrid_deform_clamp (axis0 axis1 : List F32)
    (grid : List (List (List Vec2))) (v : F32 × F32) (n : Nat)
    (hs0 : axis0.Chain' (· < ·)) (hs1 : axis1.Chain' (· < ·))
    (hlen : grid.length = axis0.length)
    (hrow : ∀ row ∈ grid, row.length = max axis1.length 1)
    (huni : ∀ row ∈ grid, ∀ c ∈ row, c.length = n) :
    evalGrid lerpDeform [] axis0 axis1 grid v
      = evalGrid lerpDeform [] axis0 axis1 grid
          (clampAxis axis0 v.1, clampAxis axis1 v.2) := by
  have hrowcond : ∀ i0 : Nat, ∀ m m', m < max axis1.length 1 →
      m' < max axis1.length 1 →
      ((grid.getD i0 []).getD m []).length = ((grid.getD i0 []).getD m' []).length := by
    intro i0 m m' hm hm'
    by_cases hi0 : i0 < grid.length
    · rw [deform_cell_length axis1 grid n hrow huni i0 hi0 m hm,
        deform_cell_length axis1 grid n hrow huni i0 hi0 m' hm']
    · have hg : grid.getD i0 [] = [] :=
        List.getD_eq_default _ _ (not_lt.mp hi0)
      simp only [hg]
      simp
  have hinner : ∀ i0 : Nat,
      bracketEval lerpDeform axis1 v.2 (fun i1 => (grid.getD i0 []).getD i1 [])
        = bracketEval lerpDeform axis1 (clampAxis axis1 v.2)
            (fun i1 => (grid.getD i0 []).getD i1 []) := by
    intro i0
    refine bracketEval_clamp lerpDeform axis1 v.2 _ hs1 ?_ ?_
    · intro m m' hm hm'
      exact lerpDeform_zero _ _ (le_of_eq (hrowcond i0 m m' hm hm'))
    · intro m m' hm hm'
      exact lerpDeform_one _ _ (le_of_eq (hrowcond i0 m' m hm' hm))
  have hiff : ∀ m m', m < max axis0.length 1 → m' < max axis0.length 1 →
      ((m < grid.length) ↔ (m' < grid.length)) := by
    intro m m' hm hm'
    rw [hlen]
    rcases Nat.eq_zero_or_pos axis0.length with h | h
    · rw [h]
      simp
    · rw [max_eq_left h] at hm hm'
      simp [hm, hm']
  have hlencl : ∀ m m', m < max axis0.length 1 → m' < max axis0.length 1 →
      (bracketEval lerpDeform axis1 (clampAxis axis1 v.2)
        (fun i1 => (grid.getD m []).getD i1 [])).length
      = (bracketEval lerpDeform axis1 (clampAxis axis1 v.2)
        (fun i1 => (grid.getD m' []).getD i1 [])).length := by
    intro m m' hm hm'
    rw [deform_inner_length axis1 grid n hrow huni _ m,
      deform_inner_length axis1 grid n hrow huni _ m']
    by_cases hmg : m < grid.length
    · rw [if_pos hmg, if_pos ((hiff m m' hm hm').mp hmg)]
    · rw [if_neg hmg, if_neg (fun hc => hmg ((hiff m m' hm hm').mpr hc))]
  unfold evalGrid
  rw [funext hinner]
  refine bracketEval_clamp lerpDeform axis0 v.1 _ hs0 ?_ ?_
  · intro m m' hm hm'
    exact lerpDeform_zero _ _ (le_of_eq (hlencl m m' hm hm'))
  · intro m m' hm hm'
    exact lerpDeform_one _ _ (le_of_eq (hlencl m' m hm' hm))

theorem clampAxis_nil (v : F32) : clampAxis [] v = v := rfl

theorem clampAxis_of_le_head (axis : List F32) (v : F32) (hne : axis ≠ [])
    (hs : axis.Chain' (· < ·)) (h : v ≤ axis.getD 0 0) :
    clampAxis axis v = axis.getD 0 0 := by
  cases axis with
  | nil => exact absurd rfl hne
  | cons x tl =>
    have hxle : x ≤ (x :: tl).getLast (List.cons_ne_nil x tl) :=
      head_le_getLast x tl hs
    have h' : v ≤ x := by simpa using h
    simp [clampAxis, min_eq_left (le_trans h' hxle), max_eq_left h']

theorem clampAxis_of_last_le (axis : List F32) (v : F32) (hne : axis ≠ [])
    (hs : axis.Chain' (· < ·)) (h : axis.getLast hne ≤ v) :
    clampAxis axis v = axis.getLast hne := by
  cases axis with
  | nil => exact absurd rfl hne
  | cons x tl =>
    have hxle : x ≤ (x :: tl).getLast (List.cons_ne_nil x tl) :=
      head_le_getLast x tl hs
    simp [clampAxis, min_eq_right h, max_eq_right hxle]

theorem evaluate_clamp_aux (p : Param) (b : Binding) (v : F32 × F32) (n : Nat)
    (hs0 : p.axis_points.1.Chain' (· < ·)) (hs1 : p.usedAxis1.Chain' (· < ·))
    (hshape : b.wellShaped p) (huni : b.uniformVertexCount n) :
    b.evaluate p v
      = b.evaluate p (clampAxis p.axis_points.1 v.1, clampAxis p.usedAxis1 v.2) := by
  cases b with
  | ZSort bb values =>
    exact congrArg BindingOutput.scalar (evalGrid_scalar_clamp _ _ values v hs0 hs1)
  | TransformTX bb values =>
    exact congrArg BindingOutput.scalar (evalGrid_scalar_clamp _ _ values v hs0 hs1)
  | TransformTY bb values =>
    exact congrArg BindingOutput.scalar (evalGrid_scalar_clamp _ _ values v hs0 hs1)
  | TransformSX bb values =>
    exact congrArg BindingOutput.scalar (evalGrid_scalar_clamp _ _ values v hs0 hs1)
  | TransformSY bb values =>
    exact congrArg BindingOutput.scalar (evalGrid_scalar_clamp _ _ values v hs0 hs1)
  | TransformRX bb values =>
    exact congrArg BindingOutput.scalar (evalGrid_scalar_clamp _ _ values v hs0 hs1)
  | TransformRY bb values =>
    exact congrArg BindingOutput.scalar (evalGrid_scalar_clamp _ _ values v hs0 hs1)
  | TransformRZ bb values =>
    exact congrArg BindingOutput.scalar (evalGrid_scalar_clamp _ _ values v hs0 hs1)
  | Deform bb values =>
    have hg := hshape.2 values rfl
    exact congrArg BindingOutput.deform
      (evalGrid_deform_clamp _ _ values v n hs0 hs1 hg.1 hg.2 huni)

theorem removeGridEntry_insertScalarGrid (dim : Fin 2) (axis : List F32)
    (pos : F32) (k : Nat) (values : List (List F32)) :
    removeGridEntry dim k (insertScalarGrid dim axis pos k values) = values := by
  fin_cases dim
  · simp [removeGridEntry, insertScalarGrid, insertGridEntry,
      List.eraseIdx_insertIdx]
  · simp [removeGridEntry, insertScalarGrid, insertGridEntry, List.map_map,
      Function.comp_def, List.eraseIdx_insertIdx]

theorem removeGridEntry_insertDeformGrid (dim : Fin 2) (axis : List F32)
    (pos : F32) (k : Nat) (values : List (List (List Vec2))) :
    removeGridEntry dim k (insertDeformGrid dim axis pos k values) = values := by
  fin_cases dim
  · simp [removeGridEntry, insertDeformGrid, insertGridEntry,
      List.eraseIdx_insertIdx]
  · simp [removeGridEntry, insertDeformGrid, insertGridEntry, List.map_map,
      Function.comp_def, List.eraseIdx_insertIdx]

theorem removeAxis_insertAxis_base (bb : BindingBase) (dim : Fin 2) (k : Nat) :
    (bb.insertAxis dim k).removeAxis dim k = bb := by
  fin_cases dim <;>
    simp [BindingBase.insertAxis, BindingBase.removeAxis, removeGridEntry,
      List.eraseIdx_insertIdx, List.map_map, Function.comp_def]

theorem removeAxis_insertAxis (b : Binding) (dim : Fin 2) (axis : List F32)
    (pos : F32) (k : Nat) :
    (b.insertAxis dim axis pos k).removeAxis dim k = b := by
  cases b <;>
    simp [Binding.insertAxis, Binding.removeAxis, removeAxis_insertAxis_base,
      removeGridEntry_insertScalarGrid, removeGridEntry_insertDeformGrid]

/-- C1: `Binding` is a tagged variant over exactly the nine kinds; every
variant carries a `base` (node reference, `is_set` boolean grid,
interpolation mode) together with a values grid — one float per cell for
the eight scalar variants, a sequence of 2D offset vectors per cell for
`Deform`; the scalar kinds are depth/z-sort plus seven transform
channels. -/
theorem binding_tagged_variant_shape :
    (∀ b : Binding,
      (b.kind = BindingKind.Deform ∧ b.scalarValues = none ∧
        ∃ vs : List (List (List Vec2)),
          b.deformValues = some vs ∧ b = Binding.Deform b.base vs) ∨
      (b.kind ∈ scalarKinds ∧ b.deformValues = none ∧
        ∃ vs : List (List F32), b.scalarValues = some vs)) ∧
    (∀ bb : BindingBase,
      bb = BindingBase.mk bb.node bb.is_set bb.interpolate_mode) ∧
    scalarKinds = BindingKind.ZSort :: transformKinds ∧
    transformKinds.length = 7 ∧
    (∀ k : BindingKind, k ∈ scalarKinds ∨ k = BindingKind.Deform) := by
  refine ⟨?_, ?_, rfl, rfl, ?_⟩
  · intro b
    cases b with
    | Deform base vs => exact Or.inl ⟨rfl, rfl, vs, rfl, rfl⟩
    | ZSort base vs => exact Or.inr ⟨by simp [Binding.kind, scalarKinds, transformKinds], rfl, vs, rfl⟩
    | TransformTX base vs => exact Or.inr ⟨by simp [Binding.kind, scalarKinds, transformKinds], rfl, vs, rfl⟩
    | TransformTY base vs => exact Or.inr ⟨by simp [Binding.kind, scalarKinds, transformKinds], rfl, vs, rfl⟩
    | TransformSX base vs => exact Or.inr ⟨by simp [Binding.kind, scalarKinds, transformKinds], rfl, vs, rfl⟩
    | TransformSY base vs => exact Or.inr ⟨by simp [Binding.kind, scalarKinds, transformKinds], rfl, vs, rfl⟩
    | TransformRX base vs => exact Or.inr ⟨by simp [Binding.kind, scalarKinds, transformKinds], rfl, vs, rfl⟩
    | TransformRY base vs => exact Or.inr ⟨by simp [Binding.kind, scalarKinds, transformKinds], rfl, vs, rfl⟩
    | TransformRZ base vs => exact Or.inr ⟨by simp [Binding.kind, scalarKinds, transformKinds], rfl, vs, rfl⟩
  · intro bb
    rfl
  · intro k
    cases k <;> simp [scalarKinds, transformKinds]

/-- C7: `Param` carries exactly a uuid, a name, an `is_vec2` flag, `min`,
`max` and `defaults` as 2D vectors, `axis_points` as a pair of sample
sequences, and the owned collection of bindings; axis sequence 0 is
always the first used axis and sequence 1 participates exactly when
`is_vec2`. -/
theorem param_field_shape :
    (∀ p : Param,
      p = Param.mk p.uuid p.name p.is_vec2 p.min p.max p.defaults
            p.axis_points p.bindings) ∧
    (∀ p : Param, p.axis_points = (p.axis_points.1, p.axis_points.2)) ∧
    (∀ p : Param, p.is_vec2 = true → p.usedAxis1 = p.axis_points.2) ∧
    (∀ p : Param, p.is_vec2 = false → p.usedAxis1 = []) := by
  refine ⟨fun p => rfl, fun p => rfl, ?_, ?_⟩
  · intro p h
    simp [Param.usedAxis1, h]
  · intro p h
    simp [Param.usedAxis1, h]

theorem param_field_shape_witness :
    (Param.mk 3 "v" true (Vec2.mk 0 0) (Vec2.mk 1 1) (Vec2.mk 0 0)
      ([0, 1], [0, 1]) []).usedAxis1 = [(0 : F32), 1] :=
  param_field_shape.2.2.1
    (Param.mk 3 "v" true (Vec2.mk 0 0) (Vec2.mk 1 1) (Vec2.mk 0 0)
      ([0, 1], [0, 1]) []) rfl

/-- C8: the default `PuppetMeta` takes its `version` from the
process-wide compiled-in constant `INOCHI2D_SPEC_VERSION`. -/
theorem puppet_meta_default_version :
    PuppetMeta.default.version = INOCHI2D_SPEC_VERSION := rfl

/-- C9: `InterpolateMode` has exactly one inhabitant, `Linear`, so every
binding's interpolation mode is `Linear`. -/
theorem interpolate_mode_only_linear :
    (∀ m : InterpolateMode, m = InterpolateMode.Linear) ∧
    (∀ b : Binding, b.base.interpolate_mode = InterpolateMode.Linear) := by
  constructor
  · intro m
    cases m
    rfl
  · intro b
    cases b.base.interpolate_mode
    rfl

/-- C10: the default usage rights are maximally restrictive: author-only
use, redistribution and modification prohibited, and every permission
flag false. -/
theorem usage_rights_default_restrictive :
    PuppetUsageRights.default.allowed_users = PuppetAllowedUsers.OnlyAuthor ∧
    PuppetUsageRights.default.allow_redistribution
      = PuppetAllowedRedistribution.Prohibited ∧
    PuppetUsageRights.default.allow_modification
      = PuppetAllowedModification.Prohibited ∧
    PuppetUsageRights.default.allow_violence = false ∧
    PuppetUsageRights.default.allow_sexual = false ∧
    PuppetUsageRights.default.allow_commercial = false ∧
    PuppetUsageRights.default.require_attribution = false := by
  exact ⟨rfl, rfl, rfl, rfl, rfl, rfl, rfl⟩

/-- C2: for every binding and every parameter value equal to an existing
axis sample position of the owning `Param` (the second coordinate is
unused when the parameter is 1D), `evaluate` returns exactly the value
stored in the grid cell at that sample's index — no interpolation drift
at exact keyframes. -/
theorem binding_evaluate_exact_at_keyframe (p : Param) (b : Binding)
    (j0 j1 : Nat) (v : F32 × F32) (n : Nat)
    (hs0 : p.axis_points.1.Chain' (· < ·)) (hs1 : p.usedAxis1.Chain' (· < ·))
    (hshape : b.wellShaped p) (huni : b.uniformVertexCount n)
    (hj0 : j0 < p.axis_points.1.length)
    (hv1 : v.1 = p.axis_points.1.getD j0 0)
    (hj1 : (p.usedAxis1 = [] ∧ j1 = 0) ∨
      (j1 < p.usedAxis1.length ∧ v.2 = p.usedAxis1.getD j1 0)) :
    b.evaluate p v = b.cellAt j0 j1 :=
  evaluate_at_sample_aux p b j0 j1 v n hs0 hs1 hshape huni hj0 hv1 hj1

theorem binding_evaluate_exact_at_keyframe_witness :
    (Binding.ZSort (BindingBase.mk 7 [[true], [false]] InterpolateMode.Linear)
        [[5], [9]]).evaluate
      (Param.mk 1 "angle" false (Vec2.mk 0 0) (Vec2.mk 1 0) (Vec2.mk 0 0)
        ([0, 1], []) []) (1, 0)
      = BindingOutput.scalar 9 := by
  have h := binding_evaluate_exact_at_keyframe
    (Param.mk 1 "angle" false (Vec2.mk 0 0) (Vec2.mk 1 0) (Vec2.mk 0 0)
      ([0, 1], []) [])
    (Binding.ZSort (BindingBase.mk 7 [[true], [false]] InterpolateMode.Linear)
      [[5], [9]]) 1 0 (1, 0) 0
    (by norm_num [List.chain'_cons])
    (by simp [Param.usedAxis1])
    (by
      refine ⟨?_, ?_⟩ <;> intro g hg
      · simp only [Binding.scalarValues, Option.some.injEq] at hg
        subst hg
        refine ⟨by simp, ?_⟩
        intro row hrow
        simp [Param.usedAxis1] at hrow ⊢
        rcases hrow with h1 | h1 <;> simp [h1]
      · simp [Binding.deformValues] at hg)
    trivial
    (by simp)
    (by simp)
    (Or.inl ⟨by simp [Param.usedAxis1], rfl⟩)
  simpa [Binding.cellAt] using h

/-- C3: evaluation never extrapolates beyond the grid: for every binding
and parameter value, the result equals the evaluation at the value
clamped into the axis ranges (clamping to the nearest edge index), and
for a 1D parameter a value at or beyond an end of the axis range
returns exactly the stored grid value at the nearest edge. -/
theorem binding_evaluate_clamped_to_edges (p : Param) (b : Binding)
    (v : F32 × F32) (n : Nat)
    (hs0 : p.axis_points.1.Chain' (· < ·)) (hs1 : p.usedAxis1.Chain' (· < ·))
    (hshape : b.wellShaped p) (huni : b.uniformVertexCount n) :
    b.evaluate p v
      = b.evaluate p (clampAxis p.axis_points.1 v.1, clampAxis p.usedAxis1 v.2)
    ∧ (p.usedAxis1 = [] → ∀ hne : p.axis_points.1 ≠ [],
        (v.1 ≤ p.axis_points.1.getD 0 0 → b.evaluate p v = b.cellAt 0 0) ∧
        (p.axis_points.1.getLast hne ≤ v.1 →
          b.evaluate p v = b.cellAt (p.axis_points.1.length - 1) 0)) := by
  have hclamp := evaluate_clamp_aux p b v n hs0 hs1 hshape huni
  refine ⟨hclamp, ?_⟩
  intro h1d hne
  have hpos : 0 < p.axis_points.1.length := List.length_pos.mpr hne
  constructor
  · intro hlow
    have hc0 : clampAxis p.axis_points.1 v.1 = p.axis_points.1.getD 0 0 :=
      clampAxis_of_le_head _ _ hne hs0 hlow
    have hc1 : clampAxis p.usedAxis1 v.2 = v.2 := by
      rw [h1d, clampAxis_nil]
    rw [hclamp, hc0, hc1]
    exact evaluate_at_sample_aux p b 0 0 _ n hs0 hs1 hshape huni hpos rfl
      (Or.inl ⟨h1d, rfl⟩)
  · intro hhigh
    have hc0 : clampAxis p.axis_points.1 v.1 = p.axis_points.1.getLast hne :=
      clampAxis_of_last_le _ _ hne hs0 hhigh
    have hc1 : clampAxis p.usedAxis1 v.2 = v.2 := by
      rw [h1d, clampAxis_nil]
    rw [hclamp, hc0, hc1]
    refine evaluate_at_sample_aux p b (p.axis_points.1.length - 1) 0 _ n
      hs0 hs1 hshape huni (by omega) ?_ (Or.inl ⟨h1d, rfl⟩)
    show p.axis_points.1.getLast hne = p.axis_points.1.getD (p.axis_points.1.length - 1) 0
    rw [List.getD_eq_getElem _ _ (by omega), List.getLast_eq_getElem]

theorem binding_evaluate_clamped_to_edges_witness :
    (Binding.TransformTX (BindingBase.mk 3 [[false], [false]] InterpolateMode.Linear)
        [[1], [3]]).evaluate
      (Param.mk 2 "arm" false (Vec2.mk 0 0) (Vec2.mk 1 0) (Vec2.mk 0 0)
        ([0, 1], []) []) (5, 2)
      = BindingOutput.scalar 3 := by
  have h := (binding_evaluate_clamped_to_edges
    (Param.mk 2 "arm" false (Vec2.mk 0 0) (Vec2.mk 1 0) (Vec2.mk 0 0)
      ([0, 1], []) [])
    (Binding.TransformTX (BindingBase.mk 3 [[false], [false]] InterpolateMode.Linear)
      [[1], [3]]) (5, 2) 0
    (by norm_num [List.chain'_cons])
    (by simp [Param.usedAxis1])
    (by
      refine ⟨?_, ?_⟩ <;> intro g hg
      · simp only [Binding.scalarValues, Option.some.injEq] at hg
        subst hg
        refine ⟨by simp, ?_⟩
        intro row hrow
        simp [Param.usedAxis1] at hrow ⊢
        rcases hrow with h1 | h1 <;> simp [h1]
      · simp [Binding.deformValues] at hg)
    trivial).2 (by simp [Param.usedAxis1]) (by simp)
  have h2 := h.2 (by norm_num [List.getLast])
  simpa [Binding.cellAt] using h2

/-- C4: under `InterpolateMode::Linear` every binding of a 1D parameter
evaluates to `lerp(values[i], values[i+1], t_0)` over the bracketing
cells of the first coordinate — scalar lerp for the eight scalar
variants, per-vertex lerp for Deform; in particular, for a Param with
axis points `[0, 1]` and a TransformTX binding with values `[0, 10]`,
`evaluate(0.25)` returns `2.5`. -/
theorem binding_evaluate_linear_1d :
    (∀ (p : Param) (b : Binding) (g : List (List F32)) (v : F32 × F32),
      p.is_vec2 = false → b.scalarValues = some g →
      b.evaluate p v
        = BindingOutput.scalar
            (lerp ((g.getD (findBracket p.axis_points.1 v.1).1 []).getD 0 0)
              ((g.getD (findBracket p.axis_points.1 v.1).2.1 []).getD 0 0)
              ((findBracket p.axis_points.1 v.1).2.2))) ∧
    (∀ (p : Param) (b : Binding) (dg : List (List (List Vec2))) (v : F32 × F32),
      p.is_vec2 = false → b.deformValues = some dg →
      b.evaluate p v
        = BindingOutput.deform
            (lerpDeform ((dg.getD (findBracket p.axis_points.1 v.1).1 []).getD 0 [])
              ((dg.getD (findBracket p.axis_points.1 v.1).2.1 []).getD 0 [])
              ((findBracket p.axis_points.1 v.1).2.2))) ∧
    (Binding.TransformTX (BindingBase.mk 0 [[false], [false]] InterpolateMode.Linear)
        [[0], [10]]).evaluate
      (Param.mk 0 "x" false (Vec2.mk 0 0) (Vec2.mk 1 0) (Vec2.mk 0 0)
        ([0, 1], []) []) (1/4, 0)
      = BindingOutput.scalar (5/2) := by
  have hgrid : ∀ (p : Param) (values : List (List F32)) (v : F32 × F32),
      p.is_vec2 = false →
      evalGrid lerp 0 p.axis_points.1 p.usedAxis1 values v
        = lerp ((values.getD (findBracket p.axis_points.1 v.1).1 []).getD 0 0)
            ((values.getD (findBracket p.axis_points.1 v.1).2.1 []).getD 0 0)
            ((findBracket p.axis_points.1 v.1).2.2) := by
    intro p values v h
    simp only [evalGrid, Param.usedAxis1, h]
    simp [bracketEval, findBracket, lerp_zero]
  have hdgrid : ∀ (p : Param) (values : List (List (List Vec2))) (v : F32 × F32),
      p.is_vec2 = false →
      evalGrid lerpDeform [] p.axis_points.1 p.usedAxis1 values v
        = lerpDeform ((values.getD (findBracket p.axis_points.1 v.1).1 []).getD 0 [])
            ((values.getD (findBracket p.axis_points.1 v.1).2.1 []).getD 0 [])
            ((findBracket p.axis_points.1 v.1).2.2) := by
    intro p values v h
    simp only [evalGrid, Param.usedAxis1, h]
    simp [bracketEval, findBracket, lerpDeform_same]
  have hscalar : ∀ (p : Param) (b : Binding) (g : List (List F32)) (v : F32 × F32),
      p.is_vec2 = false → b.scalarValues = some g →
      b.evaluate p v
        = BindingOutput.scalar
            (lerp ((g.getD (findBracket p.axis_points.1 v.1).1 []).getD 0 0)
              ((g.getD (findBracket p.axis_points.1 v.1).2.1 []).getD 0 0)
              ((findBracket p.axis_points.1 v.1).2.2)) := by
    intro p b g v h hg
    cases b with
    | ZSort bb values =>
      simp only [Binding.scalarValues, Option.some.injEq] at hg
      subst hg
      exact congrArg BindingOutput.scalar (hgrid p _ v h)
    | TransformTX bb values =>
      simp only [Binding.scalarValues, Option.some.injEq] at hg
      subst hg
      exact congrArg BindingOutput.scalar (hgrid p _ v h)
    | TransformTY bb values =>
      simp only [Binding.scalarValues, Option.some.injEq] at hg
      subst hg
      exact congrArg BindingOutput.scalar (hgrid p _ v h)
    | TransformSX bb values =>
      simp only [Binding.scalarValues, Option.some.injEq] at hg
      subst hg
      exact congrArg BindingOutput.scalar (hgrid p _ v h)
    | TransformSY bb values =>
      simp only [Binding.scalarValues, Option.some.injEq] at hg
      subst hg
      exact congrArg BindingOutput.scalar (hgrid p _ v h)
    | TransformRX bb values =>
      simp only [Binding.scalarValues, Option.some.injEq] at hg
      subst hg
      exact congrArg BindingOutput.scalar (hgrid p _ v h)
    | TransformRY bb values =>
      simp only [Binding.scalarValues, Option.some.injEq] at hg
      subst hg
      exact congrArg BindingOutput.scalar (hgrid p _ v h)
    | TransformRZ bb values =>
      simp only [Binding.scalarValues, Option.some.injEq] at hg
      subst hg
      exact congrArg BindingOutput.scalar (hgrid p _ v h)
    | Deform bb values => simp [Binding.scalarValues] at hg
  refine ⟨hscalar, ?_, ?_⟩
  · intro p b dg v h hg
    cases b with
    | Deform bb values =>
      simp only [Binding.deformValues, Option.some.injEq] at hg
      subst hg
      exact congrArg BindingOutput.deform (hdgrid p _ v h)
    | ZSort bb values => simp [Binding.deformValues] at hg
    | TransformTX bb values => simp [Binding.deformValues] at hg
    | TransformTY bb values => simp [Binding.deformValues] at hg
    | TransformSX bb values => simp [Binding.deformValues] at hg
    | TransformSY bb values => simp [Binding.deformValues] at hg
    | TransformRX bb values => simp [Binding.deformValues] at hg
    | TransformRY bb values => simp [Binding.deformValues] at hg
    | TransformRZ bb values => simp [Binding.deformValues] at hg
  · rw [hscalar
      (Param.mk 0 "x" false (Vec2.mk 0 0) (Vec2.mk 1 0) (Vec2.mk 0 0)
        ([0, 1], []) [])
      (Binding.TransformTX (BindingBase.mk 0 [[false], [false]] InterpolateMode.Linear)
        [[0], [10]])
      [[0], [10]] (1/4, 0) rfl rfl]
    norm_num [findBracket, lerp]

theorem binding_evaluate_linear_1d_witness :
    (Binding.ZSort (BindingBase.mk 1 [[false], [false]] InterpolateMode.Linear)
        [[2], [6]]).evaluate
      (Param.mk 9 "w" false (Vec2.mk 0 0) (Vec2.mk 2 0) (Vec2.mk 0 0)
        ([0, 2], []) []) (1/2, 0)
      = BindingOutput.scalar
          (lerp (([[(2 : F32)], [6]].getD (findBracket [0, 2] (1/2)).1 []).getD 0 0)
            (([[(2 : F32)], [6]].getD (findBracket [0, 2] (1/2)).2.1 []).getD 0 0)
            ((findBracket [0, 2] (1/2)).2.2)) :=
  binding_evaluate_linear_1d.1
    (Param.mk 9 "w" false (Vec2.mk 0 0) (Vec2.mk 2 0) (Vec2.mk 0 0)
      ([0, 2], []) [])
    (Binding.ZSort (BindingBase.mk 1 [[false], [false]] InterpolateMode.Linear)
      [[2], [6]])
    [[2], [6]] (1/2, 0) rfl rfl

/-- C5: for every Param and every valid (non-duplicate) new axis
position on a dimension holding at least two samples, inserting that
axis point and then removing it restores the whole Param — in
particular the value and is_set grids of every owned binding —
exactly. -/
theorem insert_remove_round_trip (p : Param) (dim : Fin 2) (pos : F32)
    (hpos : pos ∉ p.axisAt dim) (hlen : 2 ≤ (p.axisAt dim).length) :
    (p.insertAxisPoint dim pos).bind
      (fun p2 => p2.removeAxisPoint dim
        ((p.axisAt dim).countP fun a => decide (a < pos))) = Except.ok p := by
  obtain ⟨u, nm, iv, mn, mx, df, ⟨a0, a1⟩, bs⟩ := p
  by_cases hdim : dim = 0
  · simp only [Param.axisAt, if_pos hdim] at hpos hlen ⊢
    have hk : (a0.countP fun a => decide (a < pos)) ≤ a0.length :=
      List.countP_le_length _
    simp only [Param.insertAxisPoint, Param.axisAt, Param.setAxisAt,
      if_pos hdim, if_neg hpos, Except.bind, Param.removeAxisPoint]
    rw [List.length_insertIdx _ _ hk, if_neg (by omega)]
    simp [List.eraseIdx_insertIdx, List.map_map, Function.comp_def,
      removeAxis_insertAxis]
  · simp only [Param.axisAt, if_neg hdim] at hpos hlen ⊢
    have hk : (a1.countP fun a => decide (a < pos)) ≤ a1.length :=
      List.countP_le_length _
    simp only [Param.insertAxisPoint, Param.axisAt, Param.setAxisAt,
      if_neg hdim, if_neg hpos, Except.bind, Param.removeAxisPoint]
    rw [List.length_insertIdx _ _ hk, if_neg (by omega)]
    simp [List.eraseIdx_insertIdx, List.map_map, Function.comp_def,
      removeAxis_insertAxis]

theorem insert_remove_round_trip_witness :
    ((Param.mk 4 "p" false (Vec2.mk 0 0) (Vec2.mk 1 0) (Vec2.mk 0 0)
        ([0, 1], [])
        [Binding.ZSort (BindingBase.mk 0 [[true], [true]] InterpolateMode.Linear)
          [[1], [2]]]).insertAxisPoint 0 (1/2)).bind
      (fun p2 => p2.removeAxisPoint 0
        (([(0 : F32), 1]).countP fun a => decide (a < 1/2)))
      = Except.ok (Param.mk 4 "p" false (Vec2.mk 0 0) (Vec2.mk 1 0) (Vec2.mk 0 0)
          ([0, 1], [])
          [Binding.ZSort (BindingBase.mk 0 [[true], [true]] InterpolateMode.Linear)
            [[1], [2]]]) :=
  insert_remove_round_trip
    (Param.mk 4 "p" false (Vec2.mk 0 0) (Vec2.mk 1 0) (Vec2.mk 0 0)
      ([0, 1], [])
      [Binding.ZSort (BindingBase.mk 0 [[true], [true]] InterpolateMode.Linear)
        [[1], [2]]]) 0 (1/2)
    (by norm_num [Param.axisAt]) (by norm_num [Param.axisAt])

/-- C6: inserting an axis position equal to an existing one fails with
`DuplicateAxisPoint`, and removing an axis point from a dimension with
two or fewer samples (which would leave fewer than the minimum of two)
fails with `MinimumAxisPointsViolation`; in both cases only the error is
returned, so the Param — its axis grid and every binding's grids — is
left unchanged. -/
theorem authoring_edit_errors (p : Param) (dim : Fin 2) (pos : F32) (idx : Nat) :
    (pos ∈ p.axisAt dim →
      p.insertAxisPoint dim pos = Except.error ParamError.DuplicateAxisPoint) ∧
    ((p.axisAt dim).length ≤ 2 →
      p.removeAxisPoint dim idx
        = Except.error ParamError.MinimumAxisPointsViolation) := by
  constructor
  · intro h
    simp only [Param.insertAxisPoint, if_pos h]
  · intro h
    simp only [Param.removeAxisPoint, if_pos h]

theorem authoring_edit_errors_witness :
    (Param.mk 5 "q" false (Vec2.mk 0 0) (Vec2.mk 1 0) (Vec2.mk 0 0)
        ([0, 1], []) []).insertAxisPoint 0 1
      = Except.error ParamError.DuplicateAxisPoint ∧
    (Param.mk 5 "q" false (Vec2.mk 0 0) (Vec2.mk 1 0) (Vec2.mk 0 0)
        ([0, 1], []) []).removeAxisPoint 0 0
      = Except.error ParamError.MinimumAxisPointsViolation :=
  ⟨(authoring_edit_errors
      (Param.mk 5 "q" false (Vec2.mk 0 0) (Vec2.mk 1 0) (Vec2.mk 0 0)
        ([0, 1], []) []) 0 1 0).1 (by norm_num [Param.axisAt]),
   (authoring_edit_errors
      (Param.mk 5 "q" false (Vec2.mk 0 0) (Vec2.mk 1 0) (Vec2.mk 0 0)
        ([0, 1], []) []) 0 1 0).2 (by norm_num [Param.axisAt])⟩

end Inox2d
